import Mathlib

/-!
Verification of the airfoil-generator geometry pipeline.

This file is a shallow embedding, over `ℚ`, of the three core components of
the repository:

* `generate_naca_4digit` and `format_airfoil_txt`
  (from `airfoil-backend/src/naca_generator.py`),
* `parse_airfoil_csv` and `process_coordinates_for_output`
  (from `airfoil-backend/src/csv_processor.py`),
* the `process_csv` error surface of `airfoil-backend/src/routes/airfoil.py`.

Real-valued transcendental functions (`sqrt`, `sin`, `cos`, `atan`, the
constant `π`) used by the generator are abstracted into a `RealOps`
parameter: all properties proved about the generator are structural or
algebraic and hold for every interpretation of those operations (with the
point identities `sin 0 = 0`, `cos 0 = 1`, `atan 0 = 0` assumed where the
symmetric-airfoil claims need them).  Python's IEEE floats are modelled by
exact rationals; every claim settled here is about structure, ordering,
counts, exact cancellation or exact decimal rendering, none of which
depend on rounding.
-/

namespace AirfoilGen

/-- Abstract interpretations of the real-valued operations used by
`naca_generator.py` (`np.sqrt`, `np.sin`, `np.cos`, `np.arctan`, `np.pi`). -/
structure RealOps where
  pi : ℚ
  sqrt : ℚ → ℚ
  sin : ℚ → ℚ
  cos : ℚ → ℚ
  atan : ℚ → ℚ

/-- `np.linspace a b n` with default `endpoint=True`:
`n` evenly spaced samples from `a` to `b`. -/
def linspace (a b : ℚ) (n : ℕ) : List ℚ :=
  if n = 0 then []
  else if n = 1 then [a]
  else (List.range n).map (fun (i : ℕ) => a + (b - a) * (i : ℚ) / ((n : ℚ) - 1))

/-- Numeric value of an ASCII digit. -/
def digitVal (c : Char) : ℕ := c.toNat - 48

/-- The validity test of `generate_naca_4digit`:
`len(naca_code) == 4 and naca_code.isdigit()`. -/
def isValidNacaCode (code : String) : Bool :=
  code.data.length = 4 && code.data.all Char.isDigit

/-- `m = int(naca_code[0]) / 100.0` — maximum camber as fraction of chord. -/
def nacaM (code : String) : ℚ := (digitVal (code.data.getD 0 '0') : ℚ) / 100

/-- `p = int(naca_code[1]) / 10.0` — position of maximum camber. -/
def nacaP (code : String) : ℚ := (digitVal (code.data.getD 1 '0') : ℚ) / 10

/-- `t = int(naca_code[2:4]) / 100.0` — maximum thickness as fraction of chord. -/
def nacaT (code : String) : ℚ :=
  ((10 * digitVal (code.data.getD 2 '0') + digitVal (code.data.getD 3 '0') : ℕ) : ℚ) / 100

/-- The thickness distribution
`yt = 5t(0.2969·√x − 0.1260·x − 0.3516·x² + 0.2843·x³ − 0.1015·x⁴)`. -/
def thicknessYt (ops : RealOps) (t x : ℚ) : ℚ :=
  5 * t * (2969 / 10000 * ops.sqrt x - 1260 / 10000 * x - 3516 / 10000 * x ^ 2
    + 2843 / 10000 * x ^ 3 - 1015 / 10000 * x ^ 4)

/-- The camber line `yc`, piecewise at `x = p`; identically `0` unless
`m > 0 and p > 0` (the code's cambered-airfoil guard). -/
def camberYc (m p x : ℚ) : ℚ :=
  if 0 < m ∧ 0 < p then
    if x ≤ p then (m / p ^ 2) * (2 * p * x - x ^ 2)
    else (m / (1 - p) ^ 2) * ((1 - 2 * p) + 2 * p * x - x ^ 2)
  else 0

/-- The camber-line slope `dyc/dx`, piecewise at `x = p`. -/
def camberSlope (m p x : ℚ) : ℚ :=
  if 0 < m ∧ 0 < p then
    if x ≤ p then (2 * m / p ^ 2) * (p - x)
    else (2 * m / (1 - p) ^ 2) * (p - x)
  else 0

/-- Upper-surface point at station `x`:
`(x − yt·sin θ, yc + yt·cos θ)` with `θ = atan (dyc/dx)`. -/
def upperPoint (ops : RealOps) (m p t x : ℚ) : ℚ × ℚ :=
  let th := ops.atan (camberSlope m p x)
  (x - thicknessYt ops t x * ops.sin th, camberYc m p x + thicknessYt ops t x * ops.cos th)

/-- Lower-surface point at station `x`:
`(x + yt·sin θ, yc − yt·cos θ)` with `θ = atan (dyc/dx)`. -/
def lowerPoint (ops : RealOps) (m p t x : ℚ) : ℚ × ℚ :=
  let th := ops.atan (camberSlope m p x)
  (x + thicknessYt ops t x * ops.sin th, camberYc m p x - thicknessYt ops t x * ops.cos th)

/-- The chordwise stations `x = 0.5 (1 − cos β)`, `β = linspace 0 π n`. -/
def stations (ops : RealOps) (n : ℕ) : List ℚ :=
  (linspace 0 ops.pi n).map (fun b => (1 - ops.cos b) / 2)

/-- `generate_naca_4digit(naca_code, num_points)` of `naca_generator.py`,
returning the emitted coordinate sequence (the zip of `x_coords` with
`y_coords`): the upper surface reversed (`xu[::-1]`) concatenated with the
lower surface minus its first point (`xl[1:]`).  `none` models the
`ValueError` raised for a malformed code.  The returned header string is
not modelled (no claim concerns it). -/
def generate_naca_4digit (ops : RealOps) (code : String) (n : ℕ) :
    Option (List (ℚ × ℚ)) :=
  if isValidNacaCode code then
    let m := nacaM code
    let p := nacaP code
    let t := nacaT code
    let xs := stations ops n
    let upper := xs.map (upperPoint ops m p t)
    let lower := xs.map (lowerPoint ops m p t)
    some (upper.reverse ++ lower.drop 1)
  else none

theorem linspace_length (a b : ℚ) (n : ℕ) : (linspace a b n).length = n := by
  unfold linspace
  split_ifs with h0 h1
  · simp [h0]
  · simp [h1]
  · rw [List.length_map, List.length_range]

theorem stations_length (ops : RealOps) (n : ℕ) : (stations ops n).length = n := by
  simp [stations, linspace_length]

/-- C1: for every valid 4-digit code and point count `n`, `generate` emits
the reversed upper surface (`n` points, trailing edge → leading edge)
followed by the lower surface with its first (leading-edge) point dropped
(`n − 1` points), `2n − 1` points in total, so no duplicate leading-edge
vertex is emitted.  (Subtraction is ℕ-truncated, so the statement also
covers `n = 0`.) -/
theorem generate_counts_and_ordering (ops : RealOps) (code : String) (n : ℕ)
    (hcode : isValidNacaCode code = true) :
    ∃ upper lower : List (ℚ × ℚ),
      upper = (stations ops n).map (upperPoint ops (nacaM code) (nacaP code) (nacaT code)) ∧
      lower = (stations ops n).map (lowerPoint ops (nacaM code) (nacaP code) (nacaT code)) ∧
      upper.length = n ∧ (lower.drop 1).length = n - 1 ∧
      generate_naca_4digit ops code n = some (upper.reverse ++ lower.drop 1) ∧
      ∀ pts, generate_naca_4digit ops code n = some pts → pts.length = 2 * n - 1 := by
  refine ⟨_, _, rfl, rfl, ?_, ?_, ?_, ?_⟩
  · simp [stations_length]
  · simp [stations_length]
  · simp [generate_naca_4digit, hcode]
  · intro pts hpts
    simp [generate_naca_4digit, hcode] at hpts
    subst hpts
    simp [stations_length]
    omega

/-- A concrete interpretation of the abstract real operations, used to
instantiate the generator theorems at concrete inputs. -/
def sampleOps : RealOps :=
  { pi := 0, sqrt := id, sin := fun _ => 0, cos := fun _ => 1, atan := fun _ => 0 }

/-- Witness for C1 at `code = "2412"`, `n = 5`. -/
theorem generate_counts_and_ordering_witness :
    isValidNacaCode "2412" = true ∧
    ∃ upper lower : List (ℚ × ℚ),
      upper = (stations sampleOps 5).map
        (upperPoint sampleOps (nacaM "2412") (nacaP "2412") (nacaT "2412")) ∧
      lower = (stations sampleOps 5).map
        (lowerPoint sampleOps (nacaM "2412") (nacaP "2412") (nacaT "2412")) ∧
      upper.length = 5 ∧ (lower.drop 1).length = 5 - 1 ∧
      generate_naca_4digit sampleOps "2412" 5 = some (upper.reverse ++ lower.drop 1) ∧
      ∀ pts, generate_naca_4digit sampleOps "2412" 5 = some pts → pts.length = 2 * 5 - 1 :=
  ⟨by decide, generate_counts_and_ordering sampleOps "2412" 5 (by decide)⟩

/-- C8: for a symmetric code (`m = 0` or `p = 0`) the camber line is
identically zero, and the generator's upper and lower surfaces are exact
mirror images: the upper point at station `x` is `(x, yt x)` and the lower
point is `(x, −yt x)`.  Requires only the point identities `sin 0 = 0`,
`cos 0 = 1` and `atan 0 = 0` of the abstract real operations. -/
theorem generate_symmetric_mirror (ops : RealOps) (code : String) (n : ℕ)
    (hcode : isValidNacaCode code = true)
    (hsym : nacaM code = 0 ∨ nacaP code = 0)
    (hsin : ops.sin 0 = 0) (hcos : ops.cos 0 = 1) (hatan : ops.atan 0 = 0) :
    (∀ x, camberYc (nacaM code) (nacaP code) x = 0) ∧
    (∀ x, camberSlope (nacaM code) (nacaP code) x = 0) ∧
    (∀ x, upperPoint ops (nacaM code) (nacaP code) (nacaT code) x =
      (x, thicknessYt ops (nacaT code) x)) ∧
    (∀ x, lowerPoint ops (nacaM code) (nacaP code) (nacaT code) x =
      (x, -thicknessYt ops (nacaT code) x)) ∧
    generate_naca_4digit ops code n = some
      (((stations ops n).map (fun x => (x, thicknessYt ops (nacaT code) x))).reverse ++
       ((stations ops n).map (fun x => (x, -thicknessYt ops (nacaT code) x))).drop 1) := by
  have hng : ¬(0 < nacaM code ∧ 0 < nacaP code) := by
    rcases hsym with h | h <;> simp [h]
  have hyc : ∀ x, camberYc (nacaM code) (nacaP code) x = 0 := by
    intro x; simp [camberYc, hng]
  have hslope : ∀ x, camberSlope (nacaM code) (nacaP code) x = 0 := by
    intro x; simp [camberSlope, hng]
  have hup : ∀ x, upperPoint ops (nacaM code) (nacaP code) (nacaT code) x =
      (x, thicknessYt ops (nacaT code) x) := by
    intro x
    simp [upperPoint, hyc, hslope, hatan, hsin, hcos]
  have hlo : ∀ x, lowerPoint ops (nacaM code) (nacaP code) (nacaT code) x =
      (x, -thicknessYt ops (nacaT code) x) := by
    intro x
    simp [lowerPoint, hyc, hslope, hatan, hsin, hcos]
  refine ⟨hyc, hslope, hup, hlo, ?_⟩
  have hfu : upperPoint ops (nacaM code) (nacaP code) (nacaT code) =
      fun x => (x, thicknessYt ops (nacaT code) x) := funext hup
  have hfl : lowerPoint ops (nacaM code) (nacaP code) (nacaT code) =
      fun x => (x, -thicknessYt ops (nacaT code) x) := funext hlo
  simp only [generate_naca_4digit, hcode, if_true, hfu, hfl]

/-- Witness for C8 at the symmetric code `"0012"`, `n = 3`. -/
theorem generate_symmetric_mirror_witness :
    isValidNacaCode "0012" = true ∧ nacaM "0012" = 0 ∧
    ((∀ x, camberYc (nacaM "0012") (nacaP "0012") x = 0) ∧
     (∀ x, camberSlope (nacaM "0012") (nacaP "0012") x = 0) ∧
     (∀ x, upperPoint sampleOps (nacaM "0012") (nacaP "0012") (nacaT "0012") x =
       (x, thicknessYt sampleOps (nacaT "0012") x)) ∧
     (∀ x, lowerPoint sampleOps (nacaM "0012") (nacaP "0012") (nacaT "0012") x =
       (x, -thicknessYt sampleOps (nacaT "0012") x)) ∧
     generate_naca_4digit sampleOps "0012" 3 = some
       (((stations sampleOps 3).map (fun x => (x, thicknessYt sampleOps (nacaT "0012") x))).reverse ++
        ((stations sampleOps 3).map (fun x => (x, -thicknessYt sampleOps (nacaT "0012") x))).drop 1)) :=
  ⟨by decide, by with_unfolding_all decide,
   generate_symmetric_mirror sampleOps "0012" 3 (by decide)
     (Or.inl (by with_unfolding_all decide)) rfl rfl rfl⟩

/-- Round to the nearest integer, ties to even — the rounding used by
Python's fixed-point float formatting. -/
def roundHalfEven (q : ℚ) : ℤ :=
  if q - ⌊q⌋ < 1 / 2 then ⌊q⌋
  else if 1 / 2 < q - ⌊q⌋ then ⌊q⌋ + 1
  else if ⌊q⌋ % 2 = 0 then ⌊q⌋ else ⌊q⌋ + 1

/-- Left-pad a digit string with zeros to six characters. -/
def padZeros6 (s : String) : String :=
  String.mk (List.replicate (6 - s.data.length) '0') ++ s

/-- Python's `f"{v:.6f}"`: fixed-point rendering with six decimal places
(sign taken from the value, round-half-to-even on the scaled value). -/
def fmt6 (q : ℚ) : String :=
  let n := roundHalfEven (q * 1000000)
  let a := n.natAbs
  (if q < 0 then "-" else "") ++ toString (a / 1000000) ++ "." ++ padZeros6 (toString (a % 1000000))

/-- `format_airfoil_txt` of `naca_generator.py`: with `solidworks = false`
a header line then `"  {x:.6f}  {y:.6f}"` per point; with
`solidworks = true` no header and `"{x:.6f} {y:.6f} 0.000000"` per point;
lines joined by `"\n"`. -/
def format_airfoil_txt (coords : List (ℚ × ℚ)) (header : String)
    (solidworks : Bool) : String :=
  let lines :=
    if solidworks then
      coords.map (fun p => fmt6 p.1 ++ " " ++ fmt6 p.2 ++ " 0.000000")
    else
      header :: coords.map (fun p => "  " ++ fmt6 p.1 ++ "  " ++ fmt6 p.2)
  String.intercalate "\n" lines

/-- C9: SolidWorks rendering emits no header line — the output is
independent of the header argument and consists of exactly one
`"{x:.6f} {y:.6f} 0.000000"` line per point, joined by newlines; on the
2-point sequence `[(1,0),(0,0)]` the output is exactly
`"1.000000 0.000000 0.000000\n0.000000 0.000000 0.000000"`. -/
theorem solidworks_render_no_header_three_columns :
    (∀ coords h₁ h₂, format_airfoil_txt coords h₁ true = format_airfoil_txt coords h₂ true) ∧
    (∀ coords h, format_airfoil_txt coords h true =
      String.intercalate "\n"
        (coords.map (fun p => fmt6 p.1 ++ " " ++ fmt6 p.2 ++ " 0.000000"))) ∧
    (∀ h, format_airfoil_txt [((1 : ℚ), (0 : ℚ)), (0, 0)] h true =
      "1.000000 0.000000 0.000000\n0.000000 0.000000 0.000000") := by
  refine ⟨fun _ _ _ => rfl, fun _ _ => rfl, fun h => ?_⟩
  have hc : format_airfoil_txt [((1 : ℚ), (0 : ℚ)), (0, 0)] "" true =
      "1.000000 0.000000 0.000000\n0.000000 0.000000 0.000000" := by
    with_unfolding_all decide
  exact hc

/-! ### Coordinate normalizer (`process_coordinates_for_output`)

Python's `list.sort` is a stable sort; `sort(key=..., reverse=True)` is a
stable sort under the reversed key comparison (ties keep their original
relative order in both directions).  Both sorts are modelled by
`List.insertionSort`, which is stable and agrees with every stable sort
under the same total preorder. -/

/-- Comparison used for the upper surface:
`sort(key=lambda c: c[0], reverse=True)` — descending by x. -/
def descX : ℚ × ℚ → ℚ × ℚ → Prop := fun a b => b.1 ≤ a.1

/-- Comparison used for the lower surface:
`sort(key=lambda c: c[0])` — ascending by x. -/
def ascX : ℚ × ℚ → ℚ × ℚ → Prop := fun a b => a.1 ≤ b.1

instance : DecidableRel descX := fun a b => inferInstanceAs (Decidable (b.1 ≤ a.1))

instance : DecidableRel ascX := fun a b => inferInstanceAs (Decidable (a.1 ≤ b.1))

instance : IsTotal (ℚ × ℚ) descX := ⟨fun a b => le_total b.1 a.1⟩

instance : IsTrans (ℚ × ℚ) descX := ⟨fun _ _ _ h1 h2 => le_trans h2 h1⟩

instance : IsTotal (ℚ × ℚ) ascX := ⟨fun a b => le_total a.1 b.1⟩

instance : IsTrans (ℚ × ℚ) ascX := ⟨fun _ _ _ h1 h2 => le_trans h1 h2⟩

/-- The first half of the midpoint split: the loop
`if i <= len(coords) // 2: upper_surface.append(...)` collects the points
at indices `0 .. len//2`, i.e. the first `len//2 + 1` points. -/
def upperHalf (coords : List (ℚ × ℚ)) : List (ℚ × ℚ) :=
  coords.take (coords.length / 2 + 1)

/-- The second half of the midpoint split (indices `len//2 + 1 ..`). -/
def lowerHalf (coords : List (ℚ × ℚ)) : List (ℚ × ℚ) :=
  coords.drop (coords.length / 2 + 1)

/-- The upper half sorted by descending x (stable). -/
def sortedUpper (coords : List (ℚ × ℚ)) : List (ℚ × ℚ) :=
  (upperHalf coords).insertionSort descX

/-- The lower half sorted by ascending x (stable). -/
def sortedLower (coords : List (ℚ × ℚ)) : List (ℚ × ℚ) :=
  (lowerHalf coords).insertionSort ascX

/-- The duplicate-leading-edge removal: when both sorted halves are
nonempty and the first lower x agrees with the last upper x within `1e-6`,
the first lower point is dropped. -/
def dropDupLE (upper lower : List (ℚ × ℚ)) : List (ℚ × ℚ) :=
  match upper.getLast?, lower with
  | some u, l0 :: rest => if |l0.1 - u.1| < 1 / 1000000 then rest else l0 :: rest
  | _, l => l

/-- `np.argmin` over the x column: the index of the first minimal x.
`none` models the `ValueError` numpy raises on an empty sequence.  The
accumulator carries (best index, best value, next index). -/
def argminX : List (ℚ × ℚ) → Option ℕ
  | [] => none
  | p :: rest =>
    some (rest.foldl
      (fun acc q =>
        if q.1 < acc.2.1 then (acc.2.2, q.1, acc.2.2 + 1)
        else (acc.1, acc.2.1, acc.2.2 + 1))
      (0, p.1, 1)).1

/-- `np.argmax` over the x column: the index of the first maximal x.
`none` models the `ValueError` numpy raises on an empty sequence. -/
def argmaxX : List (ℚ × ℚ) → Option ℕ
  | [] => none
  | p :: rest =>
    some (rest.foldl
      (fun acc q =>
        if acc.2.1 < q.1 then (acc.2.2, q.1, acc.2.2 + 1)
        else (acc.1, acc.2.1, acc.2.2 + 1))
      (0, p.1, 1)).1

/-- `process_coordinates_for_output` of `csv_processor.py`, on the zipped
coordinate list.  The function first computes `min_x_idx = np.argmin(...)`
and `max_x_idx = np.argmax(...)` unconditionally: on an empty input these
raise `ValueError` (modelled as `none`) before anything is returned, and
their results are otherwise unused.  Then: midpoint split, sort upper
descending / lower ascending by x, drop the duplicated leading-edge
point, concatenate; the original input is returned when the combined list
is empty (unreachable, since the argmin call already requires a nonempty
input). -/
def process_coordinates_for_output (coords : List (ℚ × ℚ)) : Option (List (ℚ × ℚ)) :=
  match argminX coords, argmaxX coords with
  | some _, some _ =>
    let allCoords := sortedUpper coords ++ dropDupLE (sortedUpper coords) (sortedLower coords)
    some (if allCoords.isEmpty then coords else allCoords)
  | _, _ => none

theorem sortedUpper_length (coords : List (ℚ × ℚ)) :
    (sortedUpper coords).length = (upperHalf coords).length :=
  (List.perm_insertionSort descX _).length_eq

theorem sortedLower_length (coords : List (ℚ × ℚ)) :
    (sortedLower coords).length = (lowerHalf coords).length :=
  (List.perm_insertionSort ascX _).length_eq

theorem sortedUpper_ne_nil (coords : List (ℚ × ℚ)) (h : coords ≠ []) :
    sortedUpper coords ≠ [] := by
  have hlen : (sortedUpper coords).length = (upperHalf coords).length :=
    sortedUpper_length coords
  have hpos : 0 < (upperHalf coords).length := by
    have : 0 < coords.length := List.length_pos.mpr h
    simp only [upperHalf, List.length_take]
    omega
  exact List.ne_nil_of_length_pos (hlen ▸ hpos)

theorem process_coordinates_some (coords : List (ℚ × ℚ)) (h : coords ≠ []) :
    process_coordinates_for_output coords =
      some (sortedUpper coords ++ dropDupLE (sortedUpper coords) (sortedLower coords)) := by
  have hne : sortedUpper coords ≠ [] := sortedUpper_ne_nil coords h
  have hemp : (sortedUpper coords ++
      dropDupLE (sortedUpper coords) (sortedLower coords)).isEmpty = false := by
    rcases hsu : sortedUpper coords with _ | ⟨a, l⟩
    · exact absurd hsu hne
    · rfl
  rcases coords with _ | ⟨c, cs⟩
  · exact absurd rfl h
  · simp only [process_coordinates_for_output, argminX, argmaxX, hemp, Bool.false_eq_true,
      if_false]

theorem process_coordinates_nil :
    process_coordinates_for_output ([] : List (ℚ × ℚ)) = none := rfl

/-- C2 counterexample: on the empty input sequence the normalizer does
not return the concatenation of its sorted halves (the empty list) —
the unconditional `np.argmin`/`np.argmax` calls raise `ValueError` on an
empty sequence (modelled as `none`), so nothing is returned at all. -/
theorem normalize_empty_input_raises :
    process_coordinates_for_output ([] : List (ℚ × ℚ)) = none ∧
    process_coordinates_for_output ([] : List (ℚ × ℚ)) ≠
      some (sortedUpper ([] : List (ℚ × ℚ)) ++
        dropDupLE (sortedUpper ([] : List (ℚ × ℚ))) (sortedLower ([] : List (ℚ × ℚ)))) ∧
    argminX ([] : List (ℚ × ℚ)) = none ∧ argmaxX ([] : List (ℚ × ℚ)) = none :=
  ⟨rfl, fun h => Option.noConfusion h, rfl, rfl⟩

/-- C2 (amended): for every nonempty input, the normalizer splits the
input at index `len//2` (the first `len//2 + 1` points forming the upper
half), sorts the upper half by descending x and the lower half by
ascending x, drops the first sorted lower point when its x agrees with
the last sorted upper x within `1e-6`, and returns upper ++ lower; on the
empty input the unconditional `np.argmin` call raises `ValueError`
instead of returning a sequence. -/
theorem normalize_split_sort_dedup (coords : List (ℚ × ℚ)) (hne : coords ≠ []) :
    process_coordinates_for_output coords =
      some (sortedUpper coords ++ dropDupLE (sortedUpper coords) (sortedLower coords)) ∧
    (sortedUpper coords).Perm (coords.take (coords.length / 2 + 1)) ∧
    (sortedLower coords).Perm (coords.drop (coords.length / 2 + 1)) ∧
    (sortedUpper coords).Sorted descX ∧
    (sortedLower coords).Sorted ascX ∧
    (∀ u l0 rest, (sortedUpper coords).getLast? = some u →
      sortedLower coords = l0 :: rest →
      dropDupLE (sortedUpper coords) (sortedLower coords) =
        if |l0.1 - u.1| < 1 / 1000000 then rest else l0 :: rest) ∧
    process_coordinates_for_output ([] : List (ℚ × ℚ)) = none := by
  refine ⟨process_coordinates_some coords hne, List.perm_insertionSort descX _,
    List.perm_insertionSort ascX _, List.sorted_insertionSort descX _,
    List.sorted_insertionSort ascX _, ?_, rfl⟩
  intro u l0 rest h1 h2
  unfold dropDupLE
  rw [h1, h2]

/-- Witness for C2 at `coords = [(1,0),(0,0),(0,1),(1,1)]` (upper half the
first three points, lower half the last; the sorted halves do not share a
leading-edge x, so nothing is dropped). -/
theorem normalize_split_sort_dedup_witness :
    (sortedUpper [((1 : ℚ), (0 : ℚ)), (0, 0), (0, 1), (1, 1)]).getLast? =
      some ((0 : ℚ), (1 : ℚ)) ∧
    sortedLower [((1 : ℚ), (0 : ℚ)), (0, 0), (0, 1), (1, 1)] = [((1 : ℚ), (1 : ℚ))] ∧
    process_coordinates_for_output [((1 : ℚ), (0 : ℚ)), (0, 0), (0, 1), (1, 1)] =
      some (sortedUpper [((1 : ℚ), (0 : ℚ)), (0, 0), (0, 1), (1, 1)] ++
        dropDupLE (sortedUpper [((1 : ℚ), (0 : ℚ)), (0, 0), (0, 1), (1, 1)])
          (sortedLower [((1 : ℚ), (0 : ℚ)), (0, 0), (0, 1), (1, 1)])) ∧
    dropDupLE (sortedUpper [((1 : ℚ), (0 : ℚ)), (0, 0), (0, 1), (1, 1)])
        (sortedLower [((1 : ℚ), (0 : ℚ)), (0, 0), (0, 1), (1, 1)]) =
      (if |((1 : ℚ), (1 : ℚ)).1 - ((0 : ℚ), (1 : ℚ)).1| < 1 / 1000000 then []
       else [((1 : ℚ), (1 : ℚ))]) :=
  ⟨by with_unfolding_all decide, by with_unfolding_all decide,
   (normalize_split_sort_dedup _ (by decide)).1,
   (normalize_split_sort_dedup _ (by decide)).2.2.2.2.2.1
     ((0 : ℚ), (1 : ℚ)) ((1 : ℚ), (1 : ℚ)) []
     (by with_unfolding_all decide) (by with_unfolding_all decide)⟩

/-- Whether the duplicate-leading-edge drop fires on the given input. -/
def leDropHappens (coords : List (ℚ × ℚ)) : Bool :=
  match (sortedUpper coords).getLast?, sortedLower coords with
  | some u, l0 :: _ => decide (|l0.1 - u.1| < 1 / 1000000)
  | _, _ => false

theorem dropDupLE_eq_of_none (upper lower : List (ℚ × ℚ))
    (h : upper.getLast? = none) : dropDupLE upper lower = lower := by
  unfold dropDupLE
  rw [h]

theorem dropDupLE_nil (upper : List (ℚ × ℚ)) : dropDupLE upper [] = [] := by
  unfold dropDupLE
  rcases upper.getLast? with _ | u <;> rfl

theorem dropDupLE_eq_of_cons (upper : List (ℚ × ℚ)) (l0 : ℚ × ℚ)
    (rest : List (ℚ × ℚ)) (u : ℚ × ℚ) (h : upper.getLast? = some u) :
    dropDupLE upper (l0 :: rest) =
      if |l0.1 - u.1| < 1 / 1000000 then rest else l0 :: rest := by
  unfold dropDupLE
  rw [h]

theorem leDropHappens_eq_of_none (coords : List (ℚ × ℚ))
    (h : (sortedUpper coords).getLast? = none) : leDropHappens coords = false := by
  unfold leDropHappens
  rw [h]

theorem leDropHappens_eq_of_nil (coords : List (ℚ × ℚ))
    (h : sortedLower coords = []) : leDropHappens coords = false := by
  unfold leDropHappens
  rw [h]
  rcases (sortedUpper coords).getLast? with _ | u <;> rfl

theorem leDropHappens_eq_of_cons (coords : List (ℚ × ℚ)) (u l0 : ℚ × ℚ)
    (rest : List (ℚ × ℚ)) (hu : (sortedUpper coords).getLast? = some u)
    (hl : sortedLower coords = l0 :: rest) :
    leDropHappens coords = decide (|l0.1 - u.1| < 1 / 1000000) := by
  unfold leDropHappens
  rw [hu, hl]

theorem dropDupLE_mem (upper lower : List (ℚ × ℚ)) :
    ∀ p ∈ dropDupLE upper lower, p ∈ lower := by
  intro p hp
  cases hgl : upper.getLast? with
  | none => rw [dropDupLE_eq_of_none upper lower hgl] at hp; exact hp
  | some u =>
    rcases lower with _ | ⟨l0, rest⟩
    · rw [dropDupLE_nil] at hp; exact hp
    · rw [dropDupLE_eq_of_cons upper l0 rest u hgl] at hp
      split_ifs at hp with hc
      · exact List.mem_cons_of_mem _ hp
      · exact hp

theorem halves_length (coords : List (ℚ × ℚ)) :
    (sortedUpper coords).length + (sortedLower coords).length = coords.length := by
  rw [sortedUpper_length, sortedLower_length]
  simp only [upperHalf, lowerHalf, List.length_take, List.length_drop]
  omega

theorem appended_length_eq (coords : List (ℚ × ℚ)) :
    (sortedUpper coords ++
        dropDupLE (sortedUpper coords) (sortedLower coords)).length =
      (if leDropHappens coords then coords.length - 1 else coords.length) := by
  rw [List.length_append]
  have hhalves := halves_length coords
  cases hgl : (sortedUpper coords).getLast? with
  | none =>
    rw [dropDupLE_eq_of_none _ _ hgl, leDropHappens_eq_of_none _ hgl]
    simpa using hhalves
  | some u =>
    cases hsl : sortedLower coords with
    | nil =>
      rw [dropDupLE_nil, leDropHappens_eq_of_nil _ hsl]
      rw [hsl] at hhalves
      simp at hhalves ⊢
      omega
    | cons l0 rest =>
      rw [dropDupLE_eq_of_cons _ l0 rest u hgl,
        leDropHappens_eq_of_cons coords u l0 rest hgl hsl]
      rw [hsl] at hhalves
      simp only [decide_eq_true_eq]
      split_ifs with hc <;> simp only [List.length_cons] at hhalves ⊢ <;> omega

theorem leDropHappens_imp_nonempty (coords : List (ℚ × ℚ))
    (h : leDropHappens coords = true) : 1 ≤ coords.length := by
  rcases coords with _ | ⟨a, l⟩
  · exact absurd h (by decide)
  · simp

/-- C10 counterexample: the empty input sequence is not returned
unchanged — on it the normalizer yields no output sequence at all,
because the unconditional `np.argmin` call raises `ValueError`. -/
theorem normalize_empty_not_returned :
    process_coordinates_for_output ([] : List (ℚ × ℚ)) ≠ some ([] : List (ℚ × ℚ)) ∧
    process_coordinates_for_output ([] : List (ℚ × ℚ)) = none :=
  ⟨fun h => Option.noConfusion h, rfl⟩

/-- C10 (amended): whenever the normalizer returns a sequence, every
point of it is a point of the input, and its length is the input length,
or the input length minus one exactly when the duplicate-leading-edge
drop fires; the empty input is not returned unchanged — the `np.argmin`
call raises `ValueError` on it, so no sequence is returned. -/
theorem normalize_points_and_length (coords : List (ℚ × ℚ)) :
    (∀ pts, process_coordinates_for_output coords = some pts →
      (∀ p, p ∈ pts → p ∈ coords) ∧
      pts.length = (if leDropHappens coords then coords.length - 1 else coords.length) ∧
      (leDropHappens coords = true → 1 ≤ coords.length)) ∧
    process_coordinates_for_output ([] : List (ℚ × ℚ)) = none := by
  refine ⟨?_, rfl⟩
  intro pts hpts
  by_cases hne : coords = []
  · rw [hne] at hpts
    exact absurd hpts (fun h => Option.noConfusion h)
  · rw [process_coordinates_some coords hne] at hpts
    injection hpts with hpts'
    subst hpts'
    refine ⟨?_, appended_length_eq coords, leDropHappens_imp_nonempty coords⟩
    intro p hp
    rcases List.mem_append.mp hp with hpu | hpl
    · have : p ∈ upperHalf coords := (List.perm_insertionSort descX _).subset hpu
      exact List.take_subset _ _ this
    · have hlow : p ∈ sortedLower coords := dropDupLE_mem _ _ p hpl
      have : p ∈ lowerHalf coords := (List.perm_insertionSort ascX _).subset hlow
      exact List.drop_subset _ _ this

/-- Witness for C10 at `coords = [(1,0),(0,0),(0,1),(1,1)]`, whose
normalized output is the same four points. -/
theorem normalize_points_and_length_witness :
    (∀ p, p ∈ ([((1 : ℚ), (0 : ℚ)), (0, 0), (0, 1), (1, 1)] : List (ℚ × ℚ)) →
      p ∈ ([((1 : ℚ), (0 : ℚ)), (0, 0), (0, 1), (1, 1)] : List (ℚ × ℚ))) ∧
    ([((1 : ℚ), (0 : ℚ)), (0, 0), (0, 1), (1, 1)] : List (ℚ × ℚ)).length =
      (if leDropHappens [((1 : ℚ), (0 : ℚ)), (0, 0), (0, 1), (1, 1)] then
        ([((1 : ℚ), (0 : ℚ)), (0, 0), (0, 1), (1, 1)] : List (ℚ × ℚ)).length - 1
       else ([((1 : ℚ), (0 : ℚ)), (0, 0), (0, 1), (1, 1)] : List (ℚ × ℚ)).length) ∧
    (leDropHappens [((1 : ℚ), (0 : ℚ)), (0, 0), (0, 1), (1, 1)] = true →
      1 ≤ ([((1 : ℚ), (0 : ℚ)), (0, 0), (0, 1), (1, 1)] : List (ℚ × ℚ)).length) :=
  (normalize_points_and_length _).1
    [((1 : ℚ), (0 : ℚ)), (0, 0), (0, 1), (1, 1)] (by with_unfolding_all decide)

/-! ### Tabular extractor (`parse_airfoil_csv`)

Lines are modelled as `List Char`; the line loop of `parse_airfoil_csv`
becomes a fold of `processLine` over the split lines. -/

/-- The whitespace characters removed by Python's `str.strip()`. -/
def isPySpace (c : Char) : Bool :=
  c = ' ' || c = '\t' || c = '\n' || c = '\r' || c = '\x0b' || c = '\x0c'

/-- Python `str.strip()`. -/
def stripChars (s : List Char) : List Char :=
  ((s.dropWhile isPySpace).reverse.dropWhile isPySpace).reverse

/-- Python substring containment `pat in s`. -/
def containsSub (s pat : List Char) : Bool :=
  match s with
  | [] => pat.isEmpty
  | c :: tail => pat.isPrefixOf (c :: tail) || containsSub tail pat

/-- Python `s.lower()` (ASCII data). -/
def lowerChars (s : List Char) : List Char := s.map Char.toLower

/-- Python `s.split(sep)` on a one-character separator. -/
def splitOnChar (sep : Char) : List Char → List (List Char)
  | [] => [[]]
  | c :: rest =>
    if c = sep then [] :: splitOnChar sep rest
    else
      match splitOnChar sep rest with
      | [] => [[c]]
      | h :: t => (c :: h) :: t

/-- Python `s.split(sep, 1)`: `none` when the separator does not occur,
otherwise the text before and after its first occurrence. -/
def splitOnce (sep : Char) : List Char → Option (List Char × List Char)
  | [] => none
  | c :: rest =>
    if c = sep then some ([], rest)
    else
      match splitOnce sep rest with
      | none => none
      | some (a, b) => some (c :: a, b)

/-- Decimal digits accumulated into a natural number. -/
def digitsToNat (ds : List Char) : ℕ := ds.foldl (fun a c => 10 * a + digitVal c) 0

/-- Exponent suffix of a float literal (empty, or `e`/`E` with an optional
sign and one or more digits), scaling the mantissa by a power of ten.
Modelled from the decimal subset of Python `float()`; the `inf`/`nan` and
underscore forms are not modelled (no claim depends on them). -/
def parseExpPart (mant : ℚ) : List Char → Option ℚ
  | [] => some mant
  | c :: rest =>
    if c = 'e' ∨ c = 'E' then
      let sr : ℤ × List Char :=
        match rest with
        | '+' :: r => (1, r)
        | '-' :: r => (-1, r)
        | r => (1, r)
      let ds := sr.2.takeWhile Char.isDigit
      let tail := sr.2.dropWhile Char.isDigit
      if ds.isEmpty || !tail.isEmpty then none
      else some (mant * (10 : ℚ) ^ (sr.1 * (digitsToNat ds : ℤ)))
    else none

/-- Unsigned part of a float literal: digits, optional decimal point and
fraction digits (at least one digit in the mantissa), optional exponent. -/
def parseUnsigned (s : List Char) : Option ℚ :=
  let ip := s.takeWhile Char.isDigit
  let rest := s.dropWhile Char.isDigit
  match rest with
  | '.' :: rest2 =>
    let fp := rest2.takeWhile Char.isDigit
    let rest3 := rest2.dropWhile Char.isDigit
    if ip.isEmpty && fp.isEmpty then none
    else parseExpPart ((digitsToNat ip : ℚ) + (digitsToNat fp : ℚ) / (10 : ℚ) ^ fp.length) rest3
  | _ =>
    if ip.isEmpty then none
    else parseExpPart (digitsToNat ip : ℚ) rest

/-- Python `float(s)` on an already-stripped field (decimal subset). -/
def parseFloat (s : List Char) : Option ℚ :=
  match s with
  | '+' :: rest => parseUnsigned rest
  | '-' :: rest => (parseUnsigned rest).map (fun q => -q)
  | _ => parseUnsigned s

/-- The extractor's `coordinate_section` tag. -/
inductive Sect
  | surface
  | camber
  | chord
deriving DecidableEq

/-- The extractor's loop state (`airfoil_name`, `metadata`,
`coordinate_data`, `in_coordinates`, `coordinate_section`, `found_header`). -/
structure ScanState where
  airfoilName : List Char
  metadata : List (List Char × List Char)
  coords : List (ℚ × ℚ)
  inCoords : Bool
  sect : Option Sect
  foundHeader : Bool
deriving DecidableEq

/-- State at the start of the scan. -/
def initState : ScanState :=
  { airfoilName := "Unknown Airfoil".data, metadata := [], coords := [],
    inCoords := false, sect := none, foundHeader := false }

/-- `line.startswith('Name,')`. -/
def isNameLine (line : List Char) : Bool := "Name,".data.isPrefixOf line

/-- `'airfoil surface' in line.lower()` (the code's redundant second
disjunct `line.lower().startswith('airfoil surface')` is subsumed). -/
def isSurfaceMarker (line : List Char) : Bool :=
  containsSub (lowerChars line) "airfoil surface".data

/-- `'camber line' in line.lower()`. -/
def isCamberMarker (line : List Char) : Bool :=
  containsSub (lowerChars line) "camber line".data

/-- `'chord line' in line.lower()`. -/
def isChordMarker (line : List Char) : Bool :=
  containsSub (lowerChars line) "chord line".data

/-- `('X(' in line and 'Y(' in line) or ('x' in line.lower() and 'y' in line.lower())`. -/
def isColumnHeader (line : List Char) : Bool :=
  (containsSub line "X(".data && containsSub line "Y(".data) ||
  ((lowerChars line).contains 'x' && (lowerChars line).contains 'y')

/-- The coordinate-column labels excluded from metadata capture. -/
def coordLabels : List (List Char) :=
  ["X(mm)".data, "Y(mm)".data, "X".data, "Y".data]

/-- Python dict assignment `metadata[key] = value` on an association list. -/
def setMeta (m : List (List Char × List Char)) (k v : List Char) :
    List (List Char × List Char) :=
  if m.any (fun p => p.1 == k) then
    m.map (fun p => if p.1 == k then (k, v) else p)
  else m ++ [(k, v)]

/-- The surface data-row branch: split on commas, at least two fields,
both stripped fields nonempty, the first free of residual header tokens,
both fields parse as floats.  `none` models every silently-skipped row
(including the `except ValueError: continue` of a failed `float()`). -/
def parseDataRow (line : List Char) : Option (ℚ × ℚ) :=
  match splitOnChar ',' line with
  | p0 :: p1 :: _ =>
    let xs := stripChars p0
    let ys := stripChars p1
    if !xs.isEmpty && !ys.isEmpty &&
        !(containsSub xs "X(".data || containsSub xs "Y(".data) then
      match parseFloat xs, parseFloat ys with
      | some x, some y => some (x, y)
      | _, _ => none
    else none
  | _ => none

/-- One iteration of the extractor's line loop, in the source's branch
order: blank line / name line / section markers / metadata / coordinate
column header / surface data row. -/
def processLine (st : ScanState) (raw : List Char) : ScanState :=
  let line := stripChars raw
  if line.isEmpty || line == [','] then st
  else if isNameLine line then
    match splitOnce ',' line with
    | some (_, rest) => { st with airfoilName := stripChars rest }
    | none => st
  else if isSurfaceMarker line then
    { st with sect := some Sect.surface, inCoords := false, foundHeader := true }
  else if isCamberMarker line then
    { st with sect := some Sect.camber, inCoords := false }
  else if isChordMarker line then
    { st with sect := some Sect.chord, inCoords := false }
  else if line.contains ',' && !st.inCoords && !st.foundHeader then
    match splitOnce ',' line with
    | some (p0, p1) =>
      if !p0.isEmpty && !p1.isEmpty then
        if !(coordLabels.contains (stripChars p0)) &&
            !containsSub (lowerChars (stripChars p0)) "surface".data then
          { st with metadata := setMeta st.metadata (stripChars p0) (stripChars p1) }
        else st
      else st
    | none => st
  else if isColumnHeader line then
    if st.sect == some Sect.surface then { st with inCoords := true } else st
  else if st.sect == some Sect.surface && line.contains ',' then
    match parseDataRow line with
    | some xy => { st with coords := st.coords ++ [xy] }
    | none => st
  else st

/-- The whole line loop. -/
def scanLines (lines : List (List Char)) : ScanState :=
  lines.foldl processLine initState

/-- `content.strip().split('\n')` followed by the line loop. -/
def scanContent (content : List Char) : ScanState :=
  scanLines (splitOnChar '\n' (stripChars content))

/-- `np.max(x_coords)` over the collected pairs (0 on an empty list; the
caller only reaches it with a nonempty list). -/
def maxX : List (ℚ × ℚ) → ℚ
  | [] => 0
  | p :: rest => rest.foldl (fun a q => max a q.1) p.1

/-- The unit-normalization step: when `max_x > 10`, every x and y is
divided by `max_x`; otherwise the coordinates are returned unscaled. -/
def unitScale (coords : List (ℚ × ℚ)) : List (ℚ × ℚ) :=
  if 10 < maxX coords then
    coords.map (fun p => (p.1 / maxX coords, p.2 / maxX coords))
  else coords

/-- The extractor's output record. -/
structure AirfoilRecord where
  coords : List (ℚ × ℚ)
  airfoilName : List Char
  metadata : List (List Char × List Char)
deriving DecidableEq

/-- Python exception classes reaching the caller of `parse_airfoil_csv`. -/
inductive PyError
  | valueError (msg : List Char)
  | ioError (msg : List Char)
deriving DecidableEq

/-- The message carried by an error (Python `str(e)`). -/
def errText : PyError → List Char
  | PyError.valueError m => m
  | PyError.ioError m => m

/-- The extractor's input: a readable source with its content, or an
unreadable one together with the message of the `IOError` raised by
`open`. -/
inductive CsvSource
  | unreadable (msg : List Char)
  | readable (content : List Char)

/-- The body of `parse_airfoil_csv`'s `try` block: read, scan, raise
`ValueError('No valid coordinate data found in CSV file')` when no
coordinates were collected, otherwise unit-normalize and return. -/
def parseCsvBody (src : CsvSource) : Except PyError AirfoilRecord :=
  match src with
  | CsvSource.unreadable msg => Except.error (PyError.ioError msg)
  | CsvSource.readable content =>
    let st := scanContent content
    if st.coords = [] then
      Except.error (PyError.valueError "No valid coordinate data found in CSV file".data)
    else
      Except.ok ⟨unitScale st.coords, st.airfoilName, st.metadata⟩

/-- `parse_airfoil_csv` of `csv_processor.py`: the body wrapped in
`except Exception as e: raise ValueError(f"Error parsing CSV file: {str(e)}")`
— every failure, the unreadable-source `IOError` included, reaches the
caller as a `ValueError`. -/
def parse_airfoil_csv (src : CsvSource) : Except PyError AirfoilRecord :=
  match parseCsvBody src with
  | Except.ok r => Except.ok r
  | Except.error e =>
    Except.error (PyError.valueError ("Error parsing CSV file: ".data ++ errText e))

/-- The `/process-csv` route of `routes/airfoil.py`, restricted to its
error surface: any exception raised inside the handler's `try` block —
from parsing or from the normalizer's `np.argmin` on an empty sequence
(unreachable after a successful parse) — is answered with HTTP status 500
and the exception text; a successful parse is normalized and formatted.
(The earlier 400 answers concern only the upload plumbing, which never
reaches the parser.) -/
def process_csv (src : CsvSource) (solidworks : Bool) :
    Except (ℕ × List Char) (String × ℕ) :=
  match parse_airfoil_csv src with
  | Except.error e => Except.error (500, errText e)
  | Except.ok r =>
    match process_coordinates_for_output r.coords with
    | some pts =>
      Except.ok (format_airfoil_txt pts (String.mk r.airfoilName) solidworks, pts.length)
    | none => Except.error (500, "attempt to get argmin of an empty sequence".data)

/-- A row that reaches the surface data-row branch of the scan (it matches
none of the earlier branches, the current section is `surface` and the
line contains a comma) but yields no coordinate pair — a malformed data
row, silently skipped by the code. -/
def malformedSurfaceRow (st : ScanState) (raw : List Char) : Bool :=
  !((stripChars raw).isEmpty || stripChars raw == [',']) &&
  !isNameLine (stripChars raw) &&
  !isSurfaceMarker (stripChars raw) &&
  !isCamberMarker (stripChars raw) &&
  !isChordMarker (stripChars raw) &&
  !((stripChars raw).contains ',' && !st.inCoords && !st.foundHeader) &&
  !isColumnHeader (stripChars raw) &&
  (st.sect == some Sect.surface) && (stripChars raw).contains ',' &&
  (parseDataRow (stripChars raw)).isNone

theorem ite_bool_false {α : Sort u} {c : Bool} (h : c = false) (a b : α) :
    (if c = true then a else b) = b := by subst h; rfl

theorem ite_bool_true {α : Sort u} {c : Bool} (h : c = true) (a b : α) :
    (if c = true then a else b) = a := by subst h; rfl

theorem processLine_skips_malformed (st : ScanState) (raw : List Char)
    (h : malformedSurfaceRow st raw = true) : processLine st raw = st := by
  simp only [malformedSurfaceRow, Bool.and_eq_true, Bool.not_eq_true',
    Bool.or_eq_false_iff, beq_iff_eq] at h
  obtain ⟨⟨⟨⟨⟨⟨⟨⟨⟨⟨h1, h1b⟩, h2⟩, h3⟩, h4⟩, h5⟩, h6⟩, h7⟩, h8⟩, h9⟩, h10⟩ := h
  rw [Option.isNone_iff_eq_none] at h10
  have hc1 : ((stripChars raw).isEmpty || stripChars raw == [',']) = false := by
    rw [h1, h1b]; rfl
  have hc8 : (st.sect == some Sect.surface && (stripChars raw).contains ',') = true := by
    rw [h8, h9]; rfl
  simp only [processLine]
  rw [ite_bool_false hc1, ite_bool_false h2, ite_bool_false h3, ite_bool_false h4,
    ite_bool_false h5, ite_bool_false h6, ite_bool_false h7, ite_bool_true hc8, h10]

/-- C7: a row scanned while the current section tag is not `surface`
(whether the tag is `camber`, `chord`, or not yet set) never changes the
collected coordinate sequence, whatever the row's content — only
surface-tagged rows ever contribute coordinates. -/
theorem coords_only_from_surface_section (st : ScanState) (raw : List Char)
    (h : st.sect ≠ some Sect.surface) :
    (processLine st raw).coords = st.coords := by
  have hb : (st.sect == some Sect.surface) = false := by
    simpa using h
  simp only [processLine, hb, Bool.false_and,
    ite_bool_false (rfl : (false : Bool) = false)]
  split_ifs
  all_goals try rfl
  all_goals rcases splitOnce ',' (stripChars raw) with _ | ⟨p0, p1⟩ <;>
    (try rfl) <;> dsimp only <;> split_ifs <;> rfl

theorem scanLines_append_skip (pre post : List (List Char)) (raw : List Char)
    (h : malformedSurfaceRow (scanLines pre) raw = true) :
    scanLines (pre ++ raw :: post) = scanLines (pre ++ post) := by
  have e1 : scanLines (pre ++ raw :: post) =
      List.foldl processLine (processLine (scanLines pre) raw) post := by
    simp [scanLines, List.foldl_append]
  have e2 : scanLines (pre ++ post) = List.foldl processLine (scanLines pre) post := by
    simp [scanLines, List.foldl_append]
  rw [e1, e2, processLine_skips_malformed _ _ h]

/-- C3: extraction fails with the no-coordinate-data `ValueError` (wrapped
by the catch-all re-raise into
`"Error parsing CSV file: No valid coordinate data found in CSV file"`)
exactly when the scan recovers zero numerically-parseable coordinate rows;
and a malformed surface data row leaves the scan state unchanged — so
removing it from the input yields the same final state, and it never
aborts extraction of the subsequent rows. -/
theorem no_data_error_iff_and_malformed_row_skipped :
    (∀ content, (parse_airfoil_csv (CsvSource.readable content) =
        Except.error (PyError.valueError
          "Error parsing CSV file: No valid coordinate data found in CSV file".data) ↔
      (scanContent content).coords = [])) ∧
    (∀ st raw, malformedSurfaceRow st raw = true → processLine st raw = st) ∧
    (∀ pre post raw, malformedSurfaceRow (scanLines pre) raw = true →
      scanLines (pre ++ raw :: post) = scanLines (pre ++ post)) := by
  refine ⟨?_, processLine_skips_malformed, scanLines_append_skip⟩
  intro content
  constructor
  · intro h
    by_contra hne
    simp [parse_airfoil_csv, parseCsvBody, hne] at h
  · intro h
    simp only [parse_airfoil_csv, parseCsvBody, h, if_true]
    rfl

/-- Witness for C3: the malformed row `"1.0,abc"` under an airfoil-surface
section is skipped (state unchanged), while the well-formed rows around it
are still extracted. -/
theorem no_data_error_iff_and_malformed_row_skipped_witness :
    malformedSurfaceRow
      { initState with sect := some Sect.surface, foundHeader := true } "1.0,abc".data = true ∧
    processLine { initState with sect := some Sect.surface, foundHeader := true }
        "1.0,abc".data =
      { initState with sect := some Sect.surface, foundHeader := true } ∧
    (scanContent "Airfoil surface\nX(mm),Y(mm)\n1.0,abc\n0.5,0.25".data).coords =
      [((1 : ℚ)/2, (1 : ℚ)/4)] :=
  ⟨by with_unfolding_all decide,
   no_data_error_iff_and_malformed_row_skipped.2.1 _ _ (by with_unfolding_all decide),
   by with_unfolding_all decide⟩

theorem foldl_max_div (l : List (ℚ × ℚ)) (a c : ℚ) (hc : 0 < c) :
    (l.map (fun p => (p.1 / c, p.2 / c))).foldl (fun acc q => max acc q.1) (a / c) =
      l.foldl (fun acc q => max acc q.1) a / c := by
  induction l generalizing a with
  | nil => rfl
  | cons p rest ih =>
    simp only [List.map_cons, List.foldl_cons]
    rw [max_div_div_right hc.le a p.1]
    exact ih (max a p.1)

theorem maxX_map_div (coords : List (ℚ × ℚ)) (c : ℚ) (hc : 0 < c) :
    maxX (coords.map (fun p => (p.1 / c, p.2 / c))) = maxX coords / c := by
  cases coords with
  | nil => simp [maxX]
  | cons p rest => simpa [maxX] using foldl_max_div rest p.1 c hc

/-- C4: when the collected coordinates have maximum x above 10, the
extractor divides every x and y by that maximum, and the returned
sequence has maximum x exactly 1; otherwise the coordinates are returned
unscaled. -/
theorem unit_normalization (content : List Char)
    (h : (scanContent content).coords ≠ []) :
    ∃ r, parse_airfoil_csv (CsvSource.readable content) = Except.ok r ∧
      r.coords = unitScale (scanContent content).coords ∧
      (10 < maxX (scanContent content).coords →
        r.coords = (scanContent content).coords.map
          (fun p => (p.1 / maxX (scanContent content).coords,
                     p.2 / maxX (scanContent content).coords)) ∧
        maxX r.coords = 1) ∧
      (maxX (scanContent content).coords ≤ 10 →
        r.coords = (scanContent content).coords) := by
  refine ⟨⟨unitScale (scanContent content).coords, (scanContent content).airfoilName,
    (scanContent content).metadata⟩, ?_, rfl, ?_, ?_⟩
  · simp [parse_airfoil_csv, parseCsvBody, h]
  · intro hgt
    have hpos : (0 : ℚ) < maxX (scanContent content).coords :=
      lt_trans (by norm_num) hgt
    constructor
    · simp [unitScale, hgt]
    · simp only [unitScale, hgt, if_true]
      rw [maxX_map_div _ _ hpos, div_self (ne_of_gt hpos)]
  · intro hle
    simp [unitScale, not_lt.mpr hle]

/-- Witness for C4 on a millimetre-scale input with maximum x 200: the
extracted coordinates are rescaled to maximum x 1. -/
theorem unit_normalization_witness :
    (scanContent "Airfoil surface\nX(mm),Y(mm)\n200.0,10.0\n100.0,5.0".data).coords ≠ [] ∧
    ∃ r, parse_airfoil_csv (CsvSource.readable
        "Airfoil surface\nX(mm),Y(mm)\n200.0,10.0\n100.0,5.0".data) = Except.ok r ∧
      r.coords = unitScale
        (scanContent "Airfoil surface\nX(mm),Y(mm)\n200.0,10.0\n100.0,5.0".data).coords ∧
      (10 < maxX (scanContent
          "Airfoil surface\nX(mm),Y(mm)\n200.0,10.0\n100.0,5.0".data).coords →
        r.coords = (scanContent
            "Airfoil surface\nX(mm),Y(mm)\n200.0,10.0\n100.0,5.0".data).coords.map
          (fun p => (p.1 / maxX (scanContent
              "Airfoil surface\nX(mm),Y(mm)\n200.0,10.0\n100.0,5.0".data).coords,
            p.2 / maxX (scanContent
              "Airfoil surface\nX(mm),Y(mm)\n200.0,10.0\n100.0,5.0".data).coords)) ∧
        maxX r.coords = 1) ∧
      (maxX (scanContent
          "Airfoil surface\nX(mm),Y(mm)\n200.0,10.0\n100.0,5.0".data).coords ≤ 10 →
        r.coords = (scanContent
          "Airfoil surface\nX(mm),Y(mm)\n200.0,10.0\n100.0,5.0".data).coords) :=
  ⟨by with_unfolding_all decide,
   unit_normalization "Airfoil surface\nX(mm),Y(mm)\n200.0,10.0\n100.0,5.0".data
     (by with_unfolding_all decide)⟩

/-- C5 counterexample: on a readable source with no coordinate data the
route answers classification 500 — not the claimed 4xx-equivalent — and
the error class is the same `ValueError` the unreadable-source failure is
converted to by the catch-all re-raise, so the two failure classes are
not distinguishable by class or classification. -/
theorem error_classification_counterexample :
    parse_airfoil_csv (CsvSource.readable "".data) =
      Except.error (PyError.valueError
        "Error parsing CSV file: No valid coordinate data found in CSV file".data) ∧
    parse_airfoil_csv (CsvSource.unreadable "No such file or directory".data) =
      Except.error (PyError.valueError
        "Error parsing CSV file: No such file or directory".data) ∧
    process_csv (CsvSource.readable "".data) false =
      Except.error (500,
        "Error parsing CSV file: No valid coordinate data found in CSV file".data) ∧
    process_csv (CsvSource.unreadable "No such file or directory".data) false =
      Except.error (500, "Error parsing CSV file: No such file or directory".data) := by
  refine ⟨?_, ?_, ?_, ?_⟩ <;> rfl

theorem unitScale_ne_nil (coords : List (ℚ × ℚ)) (h : coords ≠ []) :
    unitScale coords ≠ [] := by
  unfold unitScale
  split_ifs
  · simpa using h
  · exact h

theorem parse_ok_coords_ne_nil (src : CsvSource) (r : AirfoilRecord)
    (h : parse_airfoil_csv src = Except.ok r) : r.coords ≠ [] := by
  unfold parse_airfoil_csv at h
  cases hb : parseCsvBody src with
  | error e =>
    rw [hb] at h
    exact absurd h (by simp)
  | ok r0 =>
    rw [hb] at h
    injection h with h'
    subst h'
    unfold parseCsvBody at hb
    cases src with
    | unreadable m => exact absurd hb (by simp)
    | readable content =>
      dsimp only at hb
      by_cases hc : (scanContent content).coords = []
      · rw [if_pos hc] at hb
        exact absurd hb (by simp)
      · rw [if_neg hc] at hb
        injection hb with hb'
        rw [← hb']
        exact unitScale_ne_nil _ hc

/-- C5 (amended): every extraction failure — unreadable source and missing
or unparseable coordinate data alike — reaches the caller as a `ValueError`
whose message is prefixed `"Error parsing CSV file: "`, and the route
answers every such failure with classification 500 (the classes are
distinguishable only by message text); a failure is surfaced as an error,
never as a partial result, and a successful parse is answered with the
formatted coordinates. -/
theorem error_surface_uniform (src : CsvSource) (solidworks : Bool) :
    (∀ e, parse_airfoil_csv src = Except.error e →
      ∃ m, e = PyError.valueError ("Error parsing CSV file: ".data ++ m) ∧
        process_csv src solidworks =
          Except.error (500, "Error parsing CSV file: ".data ++ m)) ∧
    (∀ r, parse_airfoil_csv src = Except.ok r →
      ∃ pts, process_coordinates_for_output r.coords = some pts ∧
        process_csv src solidworks = Except.ok
          (format_airfoil_txt pts (String.mk r.airfoilName) solidworks, pts.length)) := by
  constructor
  · intro e he
    unfold parse_airfoil_csv at he
    cases hb : parseCsvBody src with
    | ok r =>
      rw [hb] at he
      exact absurd he (by simp)
    | error e0 =>
      rw [hb] at he
      injection he with he'
      refine ⟨errText e0, he'.symm, ?_⟩
      unfold process_csv parse_airfoil_csv
      rw [hb]
      rfl
  · intro r hr
    have hne : r.coords ≠ [] := parse_ok_coords_ne_nil src r hr
    refine ⟨sortedUpper r.coords ++
        dropDupLE (sortedUpper r.coords) (sortedLower r.coords),
      process_coordinates_some r.coords hne, ?_⟩
    unfold process_csv
    rw [hr]
    dsimp only
    rw [process_coordinates_some r.coords hne]

/-- Witness for C5 (amended) at an unreadable source with message
`"boom"`. -/
theorem error_surface_uniform_witness :
    ∃ m, PyError.valueError "Error parsing CSV file: boom".data =
        PyError.valueError ("Error parsing CSV file: ".data ++ m) ∧
      process_csv (CsvSource.unreadable "boom".data) false =
        Except.error (500, "Error parsing CSV file: ".data ++ m) :=
  (error_surface_uniform (CsvSource.unreadable "boom".data) false).1
    (PyError.valueError "Error parsing CSV file: boom".data) rfl

/-- C6 counterexample: after a `"camber line"` section-marker line has
been seen — and recognized, the section tag becomes `camber` — the
key/value line `"Foo,Bar"` is still captured as metadata, because only
the `"airfoil surface"` marker sets the `found_header` flag that stops
metadata capture. -/
theorem metadata_after_marker_counterexample :
    isCamberMarker (stripChars "camber line".data) = true ∧
    (scanLines ["camber line".data]).sect = some Sect.camber ∧
    (scanLines ["camber line".data]).metadata = [] ∧
    (scanLines ["camber line".data, "Foo,Bar".data]).metadata =
      [("Foo".data, "Bar".data)] := by
  refine ⟨?_, ?_, ?_, ?_⟩ <;> rfl

theorem processLine_metadata_change (st : ScanState) (raw : List Char) :
    (processLine st raw).metadata = st.metadata ∨
    (st.foundHeader = false ∧ st.inCoords = false ∧
      ∃ p0 p1, splitOnce ',' (stripChars raw) = some (p0, p1) ∧ p0 ≠ [] ∧ p1 ≠ []) := by
  simp only [processLine]
  split_ifs with g1 g2 g3 g4 g5 g6 g7 g8
  · left; rfl
  · left; rcases splitOnce ',' (stripChars raw) with _ | ⟨p0, p1⟩ <;> rfl
  · left; rfl
  · left; rfl
  · left; rfl
  · simp only [Bool.and_eq_true, Bool.not_eq_true'] at g6
    rcases hso : splitOnce ',' (stripChars raw) with _ | ⟨p0, p1⟩
    · left; rfl
    · dsimp only
      split_ifs with gi1 gi2
      · right
        simp only [Bool.and_eq_true, Bool.not_eq_true'] at gi1
        refine ⟨g6.2, g6.1.2, p0, p1, rfl, ?_, ?_⟩
        · intro hnil
          rw [hnil] at gi1
          exact Bool.noConfusion gi1.1
        · intro hnil
          rw [hnil] at gi1
          exact Bool.noConfusion gi1.2
      · left; rfl
      · left; rfl
  · left; rfl
  · left; rfl
  · left; rcases parseDataRow (stripChars raw) with _ | xy <;> rfl
  · left; rfl

theorem processLine_foundHeader_cases (st : ScanState) (raw : List Char) :
    (processLine st raw).foundHeader = st.foundHeader ∨
    ((processLine st raw).foundHeader = true ∧
      isSurfaceMarker (stripChars raw) = true) := by
  simp only [processLine]
  split_ifs with g1 g2 g3 g4 g5 g6 g7 g8
  · left; rfl
  · left; rcases splitOnce ',' (stripChars raw) with _ | ⟨p0, p1⟩ <;> rfl
  · right; exact ⟨rfl, g3⟩
  · left; rfl
  · left; rfl
  · left
    rcases splitOnce ',' (stripChars raw) with _ | ⟨p0, p1⟩
    · rfl
    · dsimp only; split_ifs <;> rfl
  · left; rfl
  · left; rfl
  · left; rcases parseDataRow (stripChars raw) with _ | xy <;> rfl
  · left; rfl

/-- C6 (amended): a line is captured as metadata only while the
`"airfoil surface"` marker has not yet been seen (`found_header` is still
false) and the scan is not inside a coordinate block, and only when the
line splits at its first comma into two nonempty sides; once the
`"airfoil surface"` marker has been seen no further line is captured as
metadata, and the flag that stops capture is monotone and set only by an
`"airfoil surface"` marker line.  (A `"camber line"` or `"chord line"`
marker alone does not stop metadata capture — on that point the original
claim fails.) -/
theorem metadata_capture_only_before_surface_marker (st : ScanState) (raw : List Char) :
    ((processLine st raw).metadata ≠ st.metadata →
      st.foundHeader = false ∧ st.inCoords = false ∧
      ∃ p0 p1, splitOnce ',' (stripChars raw) = some (p0, p1) ∧ p0 ≠ [] ∧ p1 ≠ []) ∧
    (st.foundHeader = true → (processLine st raw).metadata = st.metadata) ∧
    (st.foundHeader = true → (processLine st raw).foundHeader = true) ∧
    ((processLine st raw).foundHeader = true →
      st.foundHeader = true ∨ isSurfaceMarker (stripChars raw) = true) := by
  refine ⟨?_, ?_, ?_, ?_⟩
  · intro hchg
    rcases processLine_metadata_change st raw with h | h
    · exact absurd h hchg
    · exact h
  · intro hfh
    rcases processLine_metadata_change st raw with h | h
    · exact h
    · rw [h.1] at hfh
      exact Bool.noConfusion hfh
  · intro hfh
    rcases processLine_foundHeader_cases st raw with h | h
    · rw [h, hfh]
    · exact h.1
  · intro hph
    rcases processLine_foundHeader_cases st raw with h | h
    · left; rw [← h, hph]
    · right; exact h.2

/-- Witness for C6 (amended): the preamble line `"Foo,Bar"` changes the
metadata, and the capture conditions did hold there. -/
theorem metadata_capture_only_before_surface_marker_witness :
    (processLine initState "Foo,Bar".data).metadata ≠ initState.metadata ∧
    (initState.foundHeader = false ∧ initState.inCoords = false ∧
      ∃ p0 p1, splitOnce ',' (stripChars "Foo,Bar".data) = some (p0, p1) ∧
        p0 ≠ [] ∧ p1 ≠ []) :=
  ⟨by decide,
   (metadata_capture_only_before_surface_marker initState "Foo,Bar".data).1 (by decide)⟩

/-- Witness for C7: a numeric row under a `camber line` section leaves the
coordinates unchanged. -/
theorem coords_only_from_surface_section_witness :
    ({ initState with sect := some Sect.camber } : ScanState).sect ≠ some Sect.surface ∧
    (processLine { initState with sect := some Sect.camber } "1.0,2.0".data).coords =
      ({ initState with sect := some Sect.camber } : ScanState).coords :=
  ⟨by decide,
   coords_only_from_surface_section { initState with sect := some Sect.camber }
     "1.0,2.0".data (by decide)⟩

end AirfoilGen
